import Mathlib

/-!
Shallow embedding of the couch-rules-engine repository, for checking its
natural-language specification against the code.

Conventions of the embedding:
  * JavaScript object fields that may be absent (`undefined`) are modelled as
    `Option` values; `none` is `undefined`.
  * ISO-8601 timestamp strings produced by `new Date().toISOString()` are
    modelled by natural numbers (the instant they denote); comparison of such
    strings is comparison of the instants.  Calls of `Date` are made explicit
    by threading a `now : Nat` argument into every function that reads the
    clock in the source.
  * A JavaScript string is falsy exactly when it is the empty string; an
    absent field is falsy.
  * `throw` of a `{forbidden: ...}` object, and `throw new Error(...)`, are
    modelled by `Except.error`.
-/

namespace CouchRules

/-- Falsiness of a possibly absent string field: `undefined` and `""` are the
falsy string-or-absent values in JavaScript (`!metadata[field]`). -/
def optStrFalsy : Option String → Bool
  | none => true
  | some s => s == ""

/-- `a || d` for a possibly absent string `a` and a (truthy) default `d`,
as used for the option defaults in `createRuleMetadata`. -/
def jsOrStr (a : Option String) (d : String) : String :=
  match a with
  | none => d
  | some s => if s == "" then d else s

/-! ## Semantic-version grammar (`isValidSemanticVersion`, utils/rule-metadata.js)

The source tests the regex
`^(\d+)\.(\d+)\.(\d+)(-[a-zA-Z0-9\-\.]+)?(\+[a-zA-Z0-9\-\.]+)?$`.
We embed it as a deterministic parser over the character list; determinism is
justified because the optional groups are introduced by the markers `-` and
`+`, neither of which belongs to the character class `[a-zA-Z0-9\-\.]+`'s
follow set ambiguity (`+` is not in the class, and the class is matched
greedily). -/

/-- Characters of the class `[a-zA-Z0-9\-\.]` in the pre-release/build parts. -/
def semverTailChar (c : Char) : Bool :=
  c.isAlphanum || c == '-' || c == '.'

/-- Consume the optional `(-[a-zA-Z0-9\-\.]+)?` group.  `none` signals that the
whole match must fail (a `-` marker with an empty class run leaves a stray
`-` that nothing later can consume). -/
def semverPre : List Char → Option (List Char)
  | '-' :: rest =>
    let p := rest.span semverTailChar
    if p.1.isEmpty then none else some p.2
  | cs => some cs

/-- Consume the optional `(\+[a-zA-Z0-9\-\.]+)?` group. -/
def semverBuild : List Char → Option (List Char)
  | '+' :: rest =>
    let p := rest.span semverTailChar
    if p.1.isEmpty then none else some p.2
  | cs => some cs

/-- The part of the regex after `MAJOR.MINOR.PATCH`: optional pre-release,
optional build metadata, then end of string. -/
def semverSuffix (cs : List Char) : Bool :=
  match semverPre cs with
  | none => false
  | some cs1 =>
    match semverBuild cs1 with
    | none => false
    | some cs2 => cs2.isEmpty

/-- `isValidSemanticVersion` from utils/rule-metadata.js, on the character
list of the argument. -/
def semverCore (cs : List Char) : Bool :=
  let p1 := cs.span Char.isDigit
  match p1.2 with
  | '.' :: r2 =>
    let p2 := r2.span Char.isDigit
    match p2.2 with
    | '.' :: r4 =>
      let p3 := r4.span Char.isDigit
      !p1.1.isEmpty && !p2.1.isEmpty && !p3.1.isEmpty && semverSuffix p3.2
    | _ => false
  | _ => false

/-- `isValidSemanticVersion(version)` (utils/rule-metadata.js). -/
def isValidSemanticVersion (version : String) : Bool :=
  semverCore version.data

/-! ## Rule metadata (utils/rule-metadata.js) -/

/-- A rule metadata object.  Every field may be absent, as in the JavaScript
object; `tags` when present is a list (a non-array `tags` value is not
representable in this model, so the `Array.isArray` branch of
`validateMetadata` cannot fire), and the timestamp fields when present are
instants (every ISO string the code produces is `Date.parse`-able, so the
invalid-date branch of `validateMetadata` cannot fire either). -/
structure Metadata where
  name : Option String := none
  description : Option String := none
  version : Option String := none
  author : Option String := none
  tags : Option (List String) := none
  status : Option String := none
  created_date : Option Nat := none
  modified_date : Option Nat := none
  change_notes : Option String := none
deriving DecidableEq, Repr

/-- The argument of `createRuleMetadata`. -/
structure CreateOptions where
  name : Option String := none
  description : Option String := none
  version : Option String := none
  author : Option String := none
  tags : Option (List String) := none
  status : Option String := none
  changeNotes : Option String := none
deriving DecidableEq, Repr

/-- `createRuleMetadata(options)` (utils/rule-metadata.js).  The function body
performs no validation at all: it fills defaults for the optional fields and
copies `name` and `description` through unchecked.  `now` is the single
`new Date().toISOString()` call of the body. -/
def createRuleMetadata (options : CreateOptions) (now : Nat) : Metadata :=
  { name := options.name
    description := options.description
    version := some (jsOrStr options.version "1.0.0")
    author := some (jsOrStr options.author "CouchDB Rules Engine")
    tags := some (options.tags.getD [])
    status := some (jsOrStr options.status "active")
    created_date := some now
    modified_date := some now
    change_notes := some (jsOrStr options.changeNotes "Initial implementation") }

/-- A patch passed to `updateRuleMetadata`: each present field overrides the
corresponding field of the existing metadata in the spread
`{...existingMetadata, ...updates, modified_date: now}`. -/
structure MetadataPatch where
  name : Option String := none
  description : Option String := none
  version : Option String := none
  author : Option String := none
  tags : Option (List String) := none
  status : Option String := none
  created_date : Option Nat := none
  change_notes : Option String := none
deriving DecidableEq, Repr

/-- Field-wise semantics of the object spread: a field present in the patch
overrides the base object's field. -/
def optOverride {α : Type} (patch base : Option α) : Option α :=
  match patch with
  | some v => some v
  | none => base

/-- The object-spread merge `{...existingMetadata, ...updates, modified_date: now}`
inside `updateRuleMetadata`.  `modified_date` is written last, so it is `now`
whatever the patch contains. -/
def mergePatch (existing : Metadata) (updates : MetadataPatch) (now : Nat) : Metadata :=
  { name := optOverride updates.name existing.name
    description := optOverride updates.description existing.description
    version := optOverride updates.version existing.version
    author := optOverride updates.author existing.author
    tags := optOverride updates.tags existing.tags
    status := optOverride updates.status existing.status
    created_date := optOverride updates.created_date existing.created_date
    modified_date := some now
    change_notes := optOverride updates.change_notes existing.change_notes }

/-- The guard `if (updates.version && !isValidSemanticVersion(updates.version))`
of `updateRuleMetadata`: note a present but empty `version` is falsy and
escapes the check. -/
def versionCheckFails (updates : MetadataPatch) : Bool :=
  match updates.version with
  | none => false
  | some v => !(v == "") && !(isValidSemanticVersion v)

/-- `updateRuleMetadata(existingMetadata, updates)` (utils/rule-metadata.js).
The merged object is built first (a fresh object: `existingMetadata` is never
assigned into), then the version guard may throw. -/
def updateRuleMetadata (existing : Metadata) (updates : MetadataPatch) (now : Nat) :
    Except String Metadata :=
  let updatedMetadata := mergePatch existing updates now
  if versionCheckFails updates then
    Except.error ("Invalid semantic version: " ++ updates.version.getD "")
  else
    Except.ok updatedMetadata

/-- The `{isValid, errors}` result of `validateMetadata`. -/
structure ValidationResult where
  isValid : Bool
  errors : List String
deriving DecidableEq, Repr

/-- The `requiredFields.forEach` loop of `validateMetadata`: one message per
falsy required field, in the order `name, description, version, author,
status`. -/
def requiredFieldErrors (m : Metadata) : List String :=
  (if optStrFalsy m.name then ["Missing required field: name"] else []) ++
  (if optStrFalsy m.description then ["Missing required field: description"] else []) ++
  (if optStrFalsy m.version then ["Missing required field: version"] else []) ++
  (if optStrFalsy m.author then ["Missing required field: author"] else []) ++
  (if optStrFalsy m.status then ["Missing required field: status"] else [])

/-- `if (metadata.version && !isValidSemanticVersion(metadata.version))`. -/
def versionFormatErrors (m : Metadata) : List String :=
  match m.version with
  | none => []
  | some v =>
    if !(v == "") && !(isValidSemanticVersion v) then
      ["Invalid semantic version: " ++ v]
    else []

/-- `if (metadata.status && !['active','draft','inactive'].includes(metadata.status))`. -/
def statusErrors (m : Metadata) : List String :=
  match m.status with
  | none => []
  | some s =>
    if !(s == "") && !(["active", "draft", "inactive"].contains s) then
      ["Invalid status: " ++ s ++ ". Must be active, draft, or inactive"]
    else []

/-- `validateMetadata(metadata)` (utils/rule-metadata.js).  The `tags` and
date-format checks of the source cannot produce errors in this model (see
`Metadata`), so only the three error-producing checks appear; every check is
run and its messages appended — no short-circuiting. -/
def validateMetadata (m : Metadata) : ValidationResult :=
  let errors := requiredFieldErrors m ++ versionFormatErrors m ++ statusErrors m
  { isValid := errors.isEmpty, errors := errors }

/-! ## Validator predicates (src/validators)

Candidate application documents.  `interviewComplete` may hold any JavaScript
primitive, because the validator stringifies it; the three numeric fields are
modelled as integer-or-absent, since their validators only compare them
numerically and a `<`/`>` comparison whose operand is `undefined` (hence
`NaN`) is false in JavaScript. -/

/-- A JavaScript primitive value, as far as `String(...)` is concerned. -/
inductive JsVal where
  | undef
  | nullv
  | bool (b : Bool)
  | num (n : Int)
  | str (s : String)
deriving DecidableEq, Repr

/-- `String(v)` on a primitive.  `String(undefined)` is the 9-character text
`"undefined"`. -/
def jsToString : JsVal → String
  | .undef => "undefined"
  | .nullv => "null"
  | .bool true => "true"
  | .bool false => "false"
  | .num n => toString n
  | .str s => s

/-- A candidate document, restricted to the fields the validators read.  A
field that the document lacks reads as `undefined`: `JsVal.undef` for
`interviewComplete`, `none` for the numeric fields. -/
structure CandidateDoc where
  interviewComplete : JsVal := JsVal.undef
  householdSize : Option Int := none
  numberOfDependents : Option Int := none
  income : Option Int := none
deriving DecidableEq, Repr

/-- The `{forbidden: ...}` object thrown by a validator. -/
structure Forbidden where
  forbidden : String
deriving DecidableEq, Repr

/-- JavaScript `x < b` where `x` may be `undefined` (comparison with `NaN` is
false). -/
def jsLt (x : Option Int) (b : Int) : Bool :=
  match x with
  | none => false
  | some a => a < b

/-- JavaScript `x > b` where `x` may be `undefined`. -/
def jsGt (x : Option Int) (b : Int) : Bool :=
  match x with
  | none => false
  | some a => a > b

/-- `interviewComplete` (src/validators/InterviewComplete.js):
rejects iff `String(doc.interviewComplete).length == 0`. -/
def interviewComplete (doc : CandidateDoc) : Except Forbidden Bool :=
  if (jsToString doc.interviewComplete).length == 0 then
    Except.error ⟨"Interview must be completed."⟩
  else
    Except.ok true

/-- `householdSize` (src/validators/householdSize.js):
rejects iff `doc.householdSize < 3`. -/
def householdSize (doc : CandidateDoc) : Except Forbidden Bool :=
  if jsLt doc.householdSize 3 then
    Except.error ⟨"Household size must be greater than 2."⟩
  else
    Except.ok true

/-- `numberOfDependents` (src/validators/numberOfDependents.js):
rejects iff `doc.numberOfDependents < 2`. -/
def numberOfDependents (doc : CandidateDoc) : Except Forbidden Bool :=
  if jsLt doc.numberOfDependents 2 then
    Except.error ⟨"The number of dependents in the household must be 1 or more."⟩
  else
    Except.ok true

/-- `householdIncome` (src/validators/numberOfDependents.js, second export):
rejects iff `doc.income > 25000`. -/
def householdIncome (doc : CandidateDoc) : Except Forbidden Bool :=
  if jsGt doc.income 25000 then
    Except.error ⟨"Income must be lower than $25,000"⟩
  else
    Except.ok true

/-! ## The loader (src/couchLoader.js)

Per validator file the loader: GETs `_design/<name>`; treats a 2xx answer as
the existing document, a 404 as absence, and any other status as absence too
(after logging a warning); builds the outgoing design document — `_rev`
carried over only when an existing document was found, `rule_metadata` taken
from the module's exported metadata (or a generated basic metadata when the
module exports none), with `modified_date` refreshed only when an existing
document was found; then PUTs (update) or POSTs (create).  The remote store
is modelled as an association list from document id to stored document, with
CouchDB's revision discipline: an update succeeds iff the supplied `_rev`
matches the current one, a create succeeds iff the id is absent. -/

/-- A local validator definition: file basename (also the exported function
name), the serialized function source, and the module's exported metadata
when present. -/
structure ValidatorDef where
  name : String
  source : String
  metadata : Option Metadata := none
deriving DecidableEq, Repr

/-- A design document as stored remotely. -/
structure StoredDoc where
  rev : Nat
  validate_doc_update : String
  rule_metadata : Metadata
deriving DecidableEq, Repr

/-- The outgoing document built by the loader; `rev` is the `_rev` field,
present only on updates. -/
structure OutDoc where
  rev : Option Nat
  validate_doc_update : String
  rule_metadata : Metadata
deriving DecidableEq, Repr

/-- Result of the existence check GET on `_design/<name>`. -/
inductive LookupResult where
  | found (d : StoredDoc)
  | notFound
  | httpError (status : Nat)
deriving DecidableEq, Repr

/-- Result of the write (PUT/POST). -/
inductive WriteResult where
  | okRev (newRev : Nat)
  | httpError (status : Nat)
deriving DecidableEq, Repr

/-- Per-definition outcome recorded in the loader's counters. -/
inductive Outcome where
  | created
  | updated
  | failed
deriving DecidableEq, Repr

/-- `validatorName.replace(/([A-Z])/g, ' $1')` on the character list. -/
def expandCamelList : List Char → List Char
  | [] => []
  | c :: cs => if c.isUpper then ' ' :: c :: expandCamelList cs else c :: expandCamelList cs

/-- `validatorName.replace(/([A-Z])/g, ' $1')`. -/
def expandCamel (s : String) : String :=
  ⟨expandCamelList s.data⟩

/-- `.replace(/^./, str => str.toUpperCase())`: uppercase the first character. -/
def capitalizeFirst (s : String) : String :=
  match s.data with
  | [] => ""
  | c :: cs => ⟨c.toUpper :: cs⟩

/-- The "basic metadata if none provided" object generated by the loader for a
module that exports no metadata; it carries no `change_notes` field. -/
def basicMetadata (validatorName : String) (now : Nat) : Metadata :=
  { name := some (capitalizeFirst (expandCamel validatorName))
    description := some ("Auto-generated from " ++ validatorName ++ ".js")
    version := some "1.0.0"
    author := some "system"
    tags := some ["auto-generated"]
    status := some "active"
    created_date := some now
    modified_date := some now
    change_notes := none }

/-- The metadata the loader attaches: the module's exported metadata, or the
generated basic metadata. -/
def localMetaOf (v : ValidatorDef) (now : Nat) : Metadata :=
  match v.metadata with
  | some m => m
  | none => basicMetadata v.name now

/-- The document id `_design/<validatorName>`. -/
def docIdOf (v : ValidatorDef) : String :=
  "_design/" ++ v.name

/-- The loop body between the GET and the write: builds the outgoing document
and chooses the method.  Returns the document and `true` for an update (PUT
with `_rev`), `false` for a create (POST without `_rev`).  Note how a
non-404 lookup failure leaves `existingDoc` null exactly as a 404 does. -/
def planWrite (v : ValidatorDef) (lr : LookupResult) (now : Nat) : OutDoc × Bool :=
  let existingDoc : Option StoredDoc :=
    match lr with
    | .found d => some d
    | .notFound => none
    | .httpError _ => none
  let meta0 := localMetaOf v now
  let meta :=
    match existingDoc with
    | some _ => { meta0 with modified_date := some now }
    | none => meta0
  ({ rev := existingDoc.map StoredDoc.rev
     validate_doc_update := v.source
     rule_metadata := meta },
   existingDoc.isSome)

/-- How the write result is booked: a successful write counts as update or
create according to the method chosen; a failed write counts as an error. -/
def stepOutcome (isUpdate : Bool) (wr : WriteResult) : Outcome :=
  match wr with
  | .okRev _ => if isUpdate then Outcome.updated else Outcome.created
  | .httpError _ => Outcome.failed

/-- The remote store: association list from document id to stored document. -/
def Store : Type := List (String × StoredDoc)

/-- `GET /{db}/{id}` against the model store. -/
def storeGet : Store → String → Option StoredDoc
  | [], _ => none
  | (k, d) :: rest, id => if k = id then some d else storeGet rest id

/-- Replace-or-append write into the association list. -/
def storePut : Store → String → StoredDoc → Store
  | [], id, d => [(id, d)]
  | (k, e) :: rest, id, d =>
    if k = id then (k, d) :: rest else (k, e) :: storePut rest id d

/-- CouchDB's revision discipline for the write: an update is accepted iff the
supplied `_rev` equals the current revision; a create is accepted iff the id
is absent; otherwise a 409 conflict. -/
def storeWrite (store : Store) (id : String) (d : OutDoc) : Store × WriteResult :=
  match storeGet store id with
  | some e =>
    if d.rev = some e.rev then
      (storePut store id ⟨e.rev + 1, d.validate_doc_update, d.rule_metadata⟩,
       WriteResult.okRev (e.rev + 1))
    else
      (store, WriteResult.httpError 409)
  | none =>
    match d.rev with
    | none =>
      (storePut store id ⟨1, d.validate_doc_update, d.rule_metadata⟩, WriteResult.okRev 1)
    | some _ => (store, WriteResult.httpError 409)

/-- One iteration of the loader's per-file loop against the model store (whose
GET answers only found / not-found, never a transport error). -/
def processOne (store : Store) (v : ValidatorDef) (now : Nat) : Store × Outcome :=
  let lr : LookupResult :=
    match storeGet store (docIdOf v) with
    | some d => LookupResult.found d
    | none => LookupResult.notFound
  let plan := planWrite v lr now
  let w := storeWrite store (docIdOf v) plan.1
  (w.1, stepOutcome plan.2 w.2)

/-- The end-of-pass summary counters of `loadValidators`. -/
structure Summary where
  successCount : Nat
  updateCount : Nat
  errorCount : Nat
deriving DecidableEq, Repr

/-- Booking of one outcome into the counters. -/
def addOutcome : Outcome → Summary → Summary
  | .created, s => { s with successCount := s.successCount + 1 }
  | .updated, s => { s with updateCount := s.updateCount + 1 }
  | .failed, s => { s with errorCount := s.errorCount + 1 }

/-- `loadValidators` (src/couchLoader.js): the per-file loop over the list of
validator definitions, threading the store.  `now` stands for the pass's
clock readings. -/
def loadValidators : Store → List ValidatorDef → Nat → Store × Summary
  | store, [], _ => (store, ⟨0, 0, 0⟩)
  | store, v :: vs, now =>
    let r := processOne store v now
    let rest := loadValidators r.1 vs now
    (rest.1, addOutcome r.2 rest.2)

/-! ## The unloader (src/couchUnloader.js)

The unloader lists `_design_docs` rows and issues one DELETE per row; a
response with `response.ok` false — of any status, 404 included — is thrown
and caught, logging `Could not delete design document`, and the remaining
deletions proceed.  The script builds no result object; we model its
observable behaviour as the two lists of logged ids, in row order. -/

/-- One row of the `_design_docs` listing. -/
structure DocRow where
  id : String
  rev : Nat
deriving DecidableEq, Repr

/-- `response.ok` of the fetch API: status in [200, 300). -/
def statusOk (s : Nat) : Bool :=
  200 ≤ s && s < 300

/-- The console output of an unloader run: ids logged as deleted, and ids
logged as `Could not delete design document`. -/
structure UnloadLog where
  deleted : List String
  couldNotDelete : List String
deriving DecidableEq, Repr

/-- The unloader's per-row DELETE loop, with `resp` giving the HTTP status the
store answers for each row's DELETE. -/
def couchUnloader : List DocRow → (DocRow → Nat) → UnloadLog
  | [], _ => ⟨[], []⟩
  | r :: rest, resp =>
    let log := couchUnloader rest resp
    if statusOk (resp r) then
      ⟨r.id :: log.deleted, log.couldNotDelete⟩
    else
      ⟨log.deleted, r.id :: log.couldNotDelete⟩

/-! ## Helper lemmas -/

/-- Reading the store after a replace-or-append write. -/
theorem storeGet_storePut (store : Store) (id id' : String) (d : StoredDoc) :
    storeGet (storePut store id d) id' = if id' = id then some d else storeGet store id' := by
  induction store with
  | nil =>
    simp only [storePut, storeGet]
    by_cases h : id = id'
    · subst h; simp
    · simp [h, Ne.symm h]
  | cons p rest ih =>
    obtain ⟨k, e⟩ := p
    simp only [storePut]
    by_cases hk : k = id
    · subst hk
      simp only [if_pos rfl, storeGet]
      by_cases h : k = id'
      · subst h; simp
      · simp [h, Ne.symm h, storeGet]
    · rw [if_neg hk]
      by_cases h : k = id'
      · subst h
        simp [storeGet, hk]
      · simp [storeGet, h, ih]

/-- When the existence check finds a document, the loop updates it: the new
revision is the successor, the stored source is the local one, and the stored
metadata is the local metadata with only `modified_date` refreshed. -/
theorem processOne_found {store : Store} {v : ValidatorDef} {now : Nat} {e : StoredDoc}
    (h : storeGet store (docIdOf v) = some e) :
    processOne store v now =
      (storePut store (docIdOf v)
        ⟨e.rev + 1, v.source, { localMetaOf v now with modified_date := some now }⟩,
       Outcome.updated) := by
  simp [processOne, planWrite, storeWrite, stepOutcome, h]

/-- When the existence check finds nothing, the loop creates the document at
revision 1 with the local metadata unchanged. -/
theorem processOne_notFound {store : Store} {v : ValidatorDef} {now : Nat}
    (h : storeGet store (docIdOf v) = none) :
    processOne store v now =
      (storePut store (docIdOf v) ⟨1, v.source, localMetaOf v now⟩, Outcome.created) := by
  simp [processOne, planWrite, storeWrite, stepOutcome, h]

/-- After one loop iteration, the iterated definition's document exists. -/
theorem processOne_self_present (store : Store) (v : ValidatorDef) (now : Nat) :
    (storeGet (processOne store v now).1 (docIdOf v)).isSome := by
  cases hg : storeGet store (docIdOf v) with
  | some e => rw [processOne_found hg]; simp [storeGet_storePut]
  | none => rw [processOne_notFound hg]; simp [storeGet_storePut]

/-- One loop iteration never removes a document. -/
theorem processOne_preserves_present (store : Store) (v : ValidatorDef) (now : Nat)
    (id : String) (h : (storeGet store id).isSome) :
    (storeGet (processOne store v now).1 id).isSome := by
  cases hg : storeGet store (docIdOf v) with
  | some e =>
    rw [processOne_found hg]
    rw [storeGet_storePut]
    split <;> simp [h]
  | none =>
    rw [processOne_notFound hg]
    rw [storeGet_storePut]
    split <;> simp [h]

/-- A whole pass never removes a document. -/
theorem loadValidators_preserves_present (defs : List ValidatorDef) (store : Store)
    (now : Nat) (id : String) (h : (storeGet store id).isSome) :
    (storeGet (loadValidators store defs now).1 id).isSome := by
  induction defs generalizing store with
  | nil => exact h
  | cons v vs ih =>
    simp only [loadValidators]
    exact ih _ (processOne_preserves_present store v now id h)

/-- After a pass, every processed definition's document exists. -/
theorem loadValidators_mem_present (defs : List ValidatorDef) (store : Store) (now : Nat)
    (v : ValidatorDef) (hv : v ∈ defs) :
    (storeGet (loadValidators store defs now).1 (docIdOf v)).isSome := by
  induction defs generalizing store with
  | nil => cases hv
  | cons w ws ih =>
    simp only [loadValidators]
    rcases List.mem_cons.mp hv with h | h
    · subst h
      exact loadValidators_preserves_present ws _ now _ (processOne_self_present store v now)
    · exact ih _ h

/-- A pass over definitions whose documents all already exist books every one
of them as an update: zero creates, one update per definition, zero errors. -/
theorem loadValidators_all_present_summary (defs : List ValidatorDef) (store : Store)
    (now : Nat) (h : ∀ v ∈ defs, (storeGet store (docIdOf v)).isSome) :
    (loadValidators store defs now).2 =
      { successCount := 0, updateCount := defs.length, errorCount := 0 } := by
  induction defs generalizing store with
  | nil => rfl
  | cons v vs ih =>
    obtain ⟨e, he⟩ := Option.isSome_iff_exists.mp (h v (List.mem_cons_self v vs))
    simp only [loadValidators, processOne_found he]
    have hrest : ∀ w ∈ vs, (storeGet (storePut store (docIdOf v)
        ⟨e.rev + 1, v.source, { localMetaOf v now with modified_date := some now }⟩)
        (docIdOf w)).isSome := by
      intro w hw
      rw [storeGet_storePut]
      split
      · simp
      · exact h w (List.mem_cons_of_mem v hw)
    rw [ih _ hrest]
    simp [addOutcome, List.length_cons]

/-- A metadata object with a falsy `name` or a falsy `description` fails
`validateMetadata`: the corresponding missing-field message makes the error
list non-empty whatever the other checks contribute. -/
theorem validateMetadata_isValid_false_of_falsy_required (m : Metadata)
    (h : optStrFalsy m.name = true ∨ optStrFalsy m.description = true) :
    (validateMetadata m).isValid = false := by
  have hne : requiredFieldErrors m ≠ [] := by
    unfold requiredFieldErrors
    rcases h with h | h <;> simp [h]
  obtain ⟨c, t, hct⟩ := List.exists_cons_of_ne_nil hne
  simp [validateMetadata, hct]

/-- Auxiliary: a string has length zero exactly when it is the empty string. -/
theorem string_length_eq_zero (s : String) : s.length = 0 ↔ s = "" := by
  constructor
  · intro h
    cases s with
    | mk data =>
      cases data with
      | nil => rfl
      | cons c cs => exact absurd h (by simp [String.length])
  · intro h
    subst h
    rfl

/-! ## Claims about the metadata model -/

/-- A patch that only sets `description`, as in `update(meta, {description: "X"})`. -/
def descPatch (x : String) : MetadataPatch :=
  { description := some x }

/-- A metadata object on which `updateRuleMetadata` runs at the very instant
recorded in its `modified_date` (two `toISOString()` calls in the same
millisecond yield the same string). -/
def sameInstantMeta : Metadata :=
  { name := some "Original Rule", description := some "Original description",
    created_date := some 1, modified_date := some 5 }

/-- Claim C4, counterexample: a present but empty `version` in the patch is
falsy, so the guard `if (updates.version && !isValidSemanticVersion(...))` is
skipped: the update succeeds and keeps the empty — non-semantic — version,
although `""` does not match the semantic-version grammar. -/
theorem claim4_empty_version_escapes_check :
    isValidSemanticVersion "" = false ∧
    updateRuleMetadata sameInstantMeta { version := some "" } 7 =
      Except.ok { sameInstantMeta with version := some "", modified_date := some 7 } :=
  ⟨rfl, rfl⟩

/-- Claim C4, amended: for every metadata object and every patch whose
`version` is present, non-empty and outside the semantic-version grammar,
`updateRuleMetadata` fails with the `Invalid semantic version` error and
returns no metadata object (the input is never mutated: the function builds a
fresh merged object and the error carries nothing). -/
theorem claim4_invalid_version_rejected (m : Metadata) (patch : MetadataPatch) (now : Nat)
    (v : String) (hv : patch.version = some v) (hne : v ≠ "")
    (hbad : isValidSemanticVersion v = false) :
    updateRuleMetadata m patch now = Except.error ("Invalid semantic version: " ++ v) := by
  simp [updateRuleMetadata, versionCheckFails, hv, hne, hbad]

/-- Claim C4, witness at `patch.version = "not-a-version"`. -/
theorem claim4_invalid_version_rejected_witness :
    updateRuleMetadata sameInstantMeta { version := some "not-a-version" } 7 =
      Except.error ("Invalid semantic version: " ++ "not-a-version") :=
  claim4_invalid_version_rejected sameInstantMeta { version := some "not-a-version" } 7
    "not-a-version" rfl (by decide) (by decide)

/-- Claim C5: `validateMetadata` collects every violation; an object with a
(truthy) `name` and missing (falsy) `description`, `version`, `author` and
`status` yields `isValid = false` with exactly the four distinct
missing-field messages, one per missing field. -/
theorem claim5_validate_collects_all_violations (m : Metadata)
    (hname : optStrFalsy m.name = false)
    (hdesc : optStrFalsy m.description = true)
    (hver : optStrFalsy m.version = true)
    (hauth : optStrFalsy m.author = true)
    (hstat : optStrFalsy m.status = true) :
    validateMetadata m =
      { isValid := false,
        errors := ["Missing required field: description",
                   "Missing required field: version",
                   "Missing required field: author",
                   "Missing required field: status"] } := by
  have hv : versionFormatErrors m = [] := by
    unfold versionFormatErrors
    cases hm : m.version with
    | none => rfl
    | some v =>
      rw [hm] at hver
      simp only [optStrFalsy] at hver
      simp [hver]
  have hs : statusErrors m = [] := by
    unfold statusErrors
    cases hm : m.status with
    | none => rfl
    | some s =>
      rw [hm] at hstat
      simp only [optStrFalsy] at hstat
      simp [hstat]
  simp [validateMetadata, requiredFieldErrors, hname, hdesc, hver, hauth, hstat, hv, hs]

/-- Claim C5, witness at the object `{name: 'Test Rule'}` of the repository's
own unit test. -/
theorem claim5_validate_collects_all_violations_witness :
    validateMetadata { name := some "Test Rule" } =
      { isValid := false,
        errors := ["Missing required field: description",
                   "Missing required field: version",
                   "Missing required field: author",
                   "Missing required field: status"] } :=
  claim5_validate_collects_all_violations { name := some "Test Rule" }
    (by decide) rfl rfl rfl rfl

/-- Claim C7, counterexample: updating at the very instant recorded in
`modified_date` (`new Date()` has not advanced past it) succeeds and leaves
`modified_date` equal to — not strictly greater than — the old value. -/
theorem claim7_same_instant_counterexample :
    updateRuleMetadata sameInstantMeta (descPatch "X") 5 =
      Except.ok { sameInstantMeta with description := some "X", modified_date := some 5 } ∧
    ({ sameInstantMeta with description := some "X", modified_date := some 5 } :
        Metadata).modified_date = sameInstantMeta.modified_date :=
  ⟨rfl, rfl⟩

/-- Claim C7, amended: `update(meta, {description: "X"})` returns a new object
whose `created_date` equals `meta.created_date` unchanged and whose
`modified_date` is the update instant — strictly greater than
`meta.modified_date` whenever the update runs strictly after the instant
recorded there. -/
theorem claim7_update_refreshes_dates (m : Metadata) (x : String) (now t : Nat)
    (_hm : m.modified_date = some t) (ht : t < now) :
    updateRuleMetadata m (descPatch x) now =
      Except.ok { m with description := some x, modified_date := some now } ∧
    ({ m with description := some x, modified_date := some now } :
        Metadata).created_date = m.created_date ∧
    t < now :=
  ⟨rfl, rfl, ht⟩

/-- Claim C7, witness: update one tick after the recorded `modified_date`. -/
theorem claim7_update_refreshes_dates_witness :
    updateRuleMetadata sameInstantMeta (descPatch "X") 6 =
      Except.ok { sameInstantMeta with description := some "X", modified_date := some 6 } ∧
    ({ sameInstantMeta with description := some "X", modified_date := some 6 } :
        Metadata).created_date = sameInstantMeta.created_date ∧
    5 < 6 :=
  claim7_update_refreshes_dates sameInstantMeta "X" 6 5 rfl (by decide)

/-- Claim C8, counterexample: `createRuleMetadata` performs no validation at
all; with both `name` and `description` absent it still returns a metadata
object (with those fields absent and every default filled in), so it does not
fail. -/
theorem claim8_create_returns_without_name :
    createRuleMetadata {} 0 =
      { name := none, description := none, version := some "1.0.0",
        author := some "CouchDB Rules Engine", tags := some [], status := some "active",
        created_date := some 0, modified_date := some 0,
        change_notes := some "Initial implementation" } := by
  decide

/-- Claim C8, amended: `createRuleMetadata` never fails; when `options.name`
or `options.description` is absent it returns a metadata object carrying
`name` and `description` through unchanged — the absent field stays absent —
and that object is reported invalid by `validateMetadata` (the validation the
spec expects at creation happens only there). -/
theorem claim8_create_never_fails (opts : CreateOptions) (now : Nat)
    (h : opts.name = none ∨ opts.description = none) :
    (createRuleMetadata opts now).name = opts.name ∧
    (createRuleMetadata opts now).description = opts.description ∧
    (validateMetadata (createRuleMetadata opts now)).isValid = false := by
  refine ⟨rfl, rfl, ?_⟩
  apply validateMetadata_isValid_false_of_falsy_required
  rcases h with h | h
  · exact Or.inl (by simp [createRuleMetadata, h, optStrFalsy])
  · exact Or.inr (by simp [createRuleMetadata, h, optStrFalsy])

/-- Claim C8, witness at options with a name but no description (a
single-absence case). -/
theorem claim8_create_never_fails_witness :
    (createRuleMetadata { name := some "Test Rule" } 0).name = some "Test Rule" ∧
    (createRuleMetadata { name := some "Test Rule" } 0).description = none ∧
    (validateMetadata (createRuleMetadata { name := some "Test Rule" } 0)).isValid = false :=
  claim8_create_never_fails { name := some "Test Rule" } 0 (Or.inr rfl)

/-! ## Claims about the validator predicates -/

/-- Claim C9: an absent `interviewComplete` field stringifies to the non-empty
text `"undefined"`, so the predicate accepts the document; the predicate's
`{forbidden}` rejection fires exactly when the field's stringification is the
empty string. -/
theorem claim9_interview_absent_accepted (doc : CandidateDoc) :
    (doc.interviewComplete = JsVal.undef → interviewComplete doc = Except.ok true) ∧
    ((∃ e, interviewComplete doc = Except.error e) ↔
      jsToString doc.interviewComplete = "") := by
  constructor
  · intro h
    unfold interviewComplete
    rw [h]
    rfl
  · constructor
    · rintro ⟨e, he⟩
      unfold interviewComplete at he
      split at he
      · next hcond =>
        exact (string_length_eq_zero _).mp (by simpa using hcond)
      · cases he
    · intro h
      refine ⟨⟨"Interview must be completed."⟩, ?_⟩
      simp [interviewComplete, h]

/-- Claim C9, witness: the document lacking `interviewComplete` is accepted. -/
theorem claim9_interview_absent_accepted_witness :
    interviewComplete {} = Except.ok true :=
  (claim9_interview_absent_accepted {}).1 rfl

/-- Claim C10: each numeric threshold predicate accepts every document
lacking its field (a JavaScript comparison against `undefined` is false), the
`{forbidden}` rejection fires exactly when the field is present and violates
the threshold (`householdSize < 3`, `numberOfDependents < 2`,
`income > 25000`), and the boundary values 3, 2 and 25000 are accepted. -/
theorem claim10_numeric_absent_and_boundary (doc : CandidateDoc) :
    (doc.householdSize = none → householdSize doc = Except.ok true) ∧
    (doc.numberOfDependents = none → numberOfDependents doc = Except.ok true) ∧
    (doc.income = none → householdIncome doc = Except.ok true) ∧
    ((∃ e, householdSize doc = Except.error e) ↔
      ∃ n, doc.householdSize = some n ∧ n < 3) ∧
    ((∃ e, numberOfDependents doc = Except.error e) ↔
      ∃ n, doc.numberOfDependents = some n ∧ n < 2) ∧
    ((∃ e, householdIncome doc = Except.error e) ↔
      ∃ n, doc.income = some n ∧ 25000 < n) ∧
    (doc.householdSize = some 3 → householdSize doc = Except.ok true) ∧
    (doc.numberOfDependents = some 2 → numberOfDependents doc = Except.ok true) ∧
    (doc.income = some 25000 → householdIncome doc = Except.ok true) := by
  refine ⟨fun h => by simp [householdSize, jsLt, h],
    fun h => by simp [numberOfDependents, jsLt, h],
    fun h => by simp [householdIncome, jsGt, h],
    ?_, ?_, ?_,
    fun h => by simp [householdSize, jsLt, h],
    fun h => by simp [numberOfDependents, jsLt, h],
    fun h => by simp [householdIncome, jsGt, h]⟩
  · cases hx : doc.householdSize with
    | none => simp [householdSize, jsLt, hx]
    | some n =>
      by_cases hn : n < 3 <;> simp [householdSize, jsLt, hx, hn]
  · cases hx : doc.numberOfDependents with
    | none => simp [numberOfDependents, jsLt, hx]
    | some n =>
      by_cases hn : n < 2 <;> simp [numberOfDependents, jsLt, hx, hn]
  · cases hx : doc.income with
    | none => simp [householdIncome, jsGt, hx]
    | some n =>
      by_cases hn : 25000 < n <;> simp [householdIncome, jsGt, hx, hn]

/-- Claim C10, witness: the empty document is accepted by all three, and the
boundary values 3, 2 and 25000 are accepted. -/
theorem claim10_numeric_absent_and_boundary_witness :
    householdSize {} = Except.ok true ∧
    householdSize { householdSize := some 3 } = Except.ok true ∧
    numberOfDependents { numberOfDependents := some 2 } = Except.ok true ∧
    householdIncome { income := some 25000 } = Except.ok true :=
  ⟨(claim10_numeric_absent_and_boundary {}).1 rfl,
   (claim10_numeric_absent_and_boundary _).2.2.2.2.2.2.1 rfl,
   (claim10_numeric_absent_and_boundary _).2.2.2.2.2.2.2.1 rfl,
   (claim10_numeric_absent_and_boundary _).2.2.2.2.2.2.2.2 rfl⟩

/-! ## Claims about the loader and unloader -/

/-- The remote metadata of the pre-existing record in the concrete scenario:
created at instant 5. -/
def ex1RemoteMeta : Metadata :=
  { name := some "Household Size Validator",
    description := some "old", version := some "1.0.0", author := some "CouchDB Rules Engine",
    tags := some [], status := some "active",
    created_date := some 5, modified_date := some 5,
    change_notes := some "Initial implementation" }

/-- The local module's exported metadata in the concrete scenario: created at
instant 9 (the module was re-required, so `createRuleMetadata` stamped a new
creation time). -/
def ex1LocalMeta : Metadata :=
  { name := some "Household Size Validator",
    description := some "new", version := some "1.0.0", author := some "CouchDB Rules Engine",
    tags := some [], status := some "active",
    created_date := some 9, modified_date := some 9,
    change_notes := some "Initial implementation" }

/-- The local validator definition of the concrete scenario. -/
def ex1Def : ValidatorDef :=
  { name := "householdSize", source := "function (doc) ...", metadata := some ex1LocalMeta }

/-- A starting remote state that already holds the rule's record. -/
def ex1Store : Store :=
  [("_design/householdSize", ⟨1, "old source", ex1RemoteMeta⟩)]

/-- Claim C1, counterexample: the remote record starts with
`created_date = 5`, but the record written by the pass carries
`created_date = 9` — the local metadata's creation time, not the existing
remote one: the loader never copies the remote `created_date` forward. -/
theorem claim1_created_date_counterexample :
    storeGet ex1Store (docIdOf ex1Def) = some ⟨1, "old source", ex1RemoteMeta⟩ ∧
    ex1RemoteMeta.created_date = some 5 ∧
    storeGet (processOne ex1Store ex1Def 20).1 (docIdOf ex1Def) =
      some ⟨2, "function (doc) ...", { ex1LocalMeta with modified_date := some 20 }⟩ ∧
    ({ ex1LocalMeta with modified_date := some 20 } : Metadata).created_date = some 9 :=
  ⟨by decide, rfl, by decide, rfl⟩

/-- Claim C1, amended: for a rule whose remote record exists at the start of
the pass, the written record's `rule_metadata.modified_date` is refreshed to
the update instant, but its `created_date` is the one of the local
definition's metadata (the existing remote record's `created_date` is
overwritten, not preserved). -/
theorem claim1_update_writes_local_metadata (store : Store) (v : ValidatorDef) (now : Nat)
    (e : StoredDoc) (h : storeGet store (docIdOf v) = some e) :
    storeGet (processOne store v now).1 (docIdOf v) =
      some ⟨e.rev + 1, v.source, { localMetaOf v now with modified_date := some now }⟩ ∧
    ({ localMetaOf v now with modified_date := some now } : Metadata).modified_date =
      some now ∧
    ({ localMetaOf v now with modified_date := some now } : Metadata).created_date =
      (localMetaOf v now).created_date := by
  refine ⟨?_, rfl, rfl⟩
  rw [processOne_found h]
  simp [storeGet_storePut]

/-- Claim C1, witness on the concrete scenario. -/
theorem claim1_update_writes_local_metadata_witness :
    storeGet (processOne ex1Store ex1Def 20).1 (docIdOf ex1Def) =
      some ⟨1 + 1, ex1Def.source, { localMetaOf ex1Def 20 with modified_date := some 20 }⟩ ∧
    ({ localMetaOf ex1Def 20 with modified_date := some 20 } : Metadata).modified_date =
      some 20 ∧
    ({ localMetaOf ex1Def 20 with modified_date := some 20 } : Metadata).created_date =
      (localMetaOf ex1Def 20).created_date :=
  claim1_update_writes_local_metadata ex1Store ex1Def 20 ⟨1, "old source", ex1RemoteMeta⟩
    (by decide)

/-- A validator definition whose lookup will fail. -/
def ex2Def : ValidatorDef :=
  { name := "numberOfDependents", source := "function (doc) ..." }

/-- Claim C2, counterexample: when the existence check answers HTTP 500 the
loader leaves `existingDoc` null exactly as on a 404, so it plans a create
(POST, no `_rev`); nothing is recorded as failed at the lookup, and if the
subsequent write is accepted the definition is booked as created, not
failed. -/
theorem claim2_lookup_error_creates_counterexample :
    planWrite ex2Def (LookupResult.httpError 500) 3 =
      planWrite ex2Def LookupResult.notFound 3 ∧
    (planWrite ex2Def (LookupResult.httpError 500) 3).1.rev = none ∧
    (planWrite ex2Def (LookupResult.httpError 500) 3).2 = false ∧
    stepOutcome (planWrite ex2Def (LookupResult.httpError 500) 3).2 (WriteResult.okRev 1) =
      Outcome.created :=
  ⟨rfl, rfl, rfl, rfl⟩

/-- Claim C2, amended: for every definition and every non-404 lookup failure
status, the loader logs a warning and then proceeds exactly as if the record
were absent: it plans a create without a revision token, and a subsequently
accepted write is counted as a create — a failure is recorded only if the
write itself fails. -/
theorem claim2_lookup_error_behaves_as_absent (v : ValidatorDef) (status now : Nat) :
    planWrite v (LookupResult.httpError status) now = planWrite v LookupResult.notFound now ∧
    (planWrite v (LookupResult.httpError status) now).1.rev = none ∧
    (planWrite v (LookupResult.httpError status) now).2 = false ∧
    stepOutcome (planWrite v (LookupResult.httpError status) now).2 (WriteResult.okRev 1) =
      Outcome.created :=
  ⟨rfl, rfl, rfl, rfl⟩

/-- The three-row `_design_docs` listing of the unloader scenario. -/
def ex3Rows : List DocRow :=
  [⟨"_design/a", 1⟩, ⟨"_design/b", 1⟩, ⟨"_design/c", 1⟩]

/-- Delete responses of the scenario: the first two rows delete successfully,
the third is already absent (404). -/
def ex3Resp : DocRow → Nat :=
  fun r => if r.id = "_design/c" then 404 else 200

/-- Claim C3, counterexample: in the three-record scenario with one record
already absent, the 404 delete response is not ok, so the unloader logs
`Could not delete design document` for it — the 404 is counted as a failure,
not as already-satisfied, and no `{deletedCount, failures}` result is
produced (only these per-record logs). -/
theorem claim3_notfound_counted_as_failure :
    ex3Resp ⟨"_design/c", 1⟩ = 404 ∧
    statusOk 404 = false ∧
    couchUnloader ex3Rows ex3Resp =
      { deleted := ["_design/a", "_design/b"], couldNotDelete := ["_design/c"] } :=
  ⟨rfl, rfl, by decide⟩

/-- Claim C3, amended: the unloader attempts every listed record's delete —
failures do not stop the remaining deletions — and logs each record either as
deleted (2xx response) or as a could-not-delete failure (any non-2xx
response, 404 included); it reports these per-record logs, not a
`{deletedCount, failures}` object. -/
theorem claim3_unloader_best_effort (rows : List DocRow) (resp : DocRow → Nat) :
    (couchUnloader rows resp).deleted =
      (rows.filter (fun r => statusOk (resp r))).map DocRow.id ∧
    (couchUnloader rows resp).couldNotDelete =
      (rows.filter (fun r => !statusOk (resp r))).map DocRow.id := by
  induction rows with
  | nil => exact ⟨rfl, rfl⟩
  | cons r rest ih =>
    unfold couchUnloader
    cases h : statusOk (resp r) <;>
      simp [h, List.filter_cons, ih.1, ih.2]

/-- Claim C6: running the loader's reconciliation twice in a row — the second
pass starting from the remote state the first pass produced — yields on the
second pass zero creates, one update per definition, and zero failures. -/
theorem claim6_second_pass_zero_creates (store : Store) (defs : List ValidatorDef)
    (now1 now2 : Nat) :
    (loadValidators (loadValidators store defs now1).1 defs now2).2 =
      { successCount := 0, updateCount := defs.length, errorCount := 0 } :=
  loadValidators_all_present_summary defs _ now2
    (fun v hv => loadValidators_mem_present defs store now1 v hv)

end CouchRules
